import Mathlib

/-!
Verification of the weekly-reconciliation pipeline of the `knaaktomatisering`
repository, as a shallow embedding in Lean.

Modelling conventions, used consistently below:
* Currency amounts (`f32` in the source) are modelled as `ℚ`: the claims under
  study are about the *structure* of the aggregation (which values are summed,
  in which grouping), not about floating-point rounding, and the source sums
  in input order, which the embedding mirrors verbatim via `List.foldl`.
* Timestamps (`time::OffsetDateTime` instants) are modelled as `ℤ` (seconds);
  comparison of `OffsetDateTime` values compares instants, which matches
  integer comparison.
* Civil (local) date-times are modelled by `LocalDT`: a day number `day : ℤ`
  counted from an epoch chosen to be a Monday, plus a second-of-day `sec : ℤ`.
  With that anchoring, the `time` crate's weekday of a date `d` is
  `d % 7` (`0` = Monday), and date arithmetic by whole days is integer
  arithmetic on `day`.  Offsets are fixed (no DST in `UtcOffset`), so
  subtracting exact weeks from a local midnight stays at local midnight.
* Rust `HashMap`s are modelled extensionally as functions `ℕ → Option ℚ`
  (`None` = key absent).  Iterating a `HashMap` and folding its entries with a
  commutative, key-pointwise update is order-independent, so the pointwise
  model is exact for the folds the source performs.  Where the *iteration
  order itself* matters (the cost-center pattern list of the classifier) the
  embedding instead takes the iterated entry list as an explicit parameter,
  since `std::collections::HashMap` leaves that order unspecified.
* Fallible code returns `Except`; a Rust `panic!`/`unwrap` is modelled by a
  dedicated `panicked` outcome (or `Option.none` for `ExactPayload::value`).
* Filter-expression strings (`exact_filter`) are modelled as `List Char`,
  with `String.remove(0)` / remove-last mirrored by `List.tail` /
  `List.dropLast`.
-/

set_option autoImplicit false

namespace Knaakt

/-! ## Pretix order-data model (`pretix_request/src/data_exporter.rs`) -/

/-- One fee attached to an order (`OrderDataExportOrderItemFee`). -/
structure OrderDataExportOrderItemFee where
  value : ℚ
  deriving DecidableEq

/-- One position of an order (`OrderDataExportOrderedItem`): the sale-item id
(`item`, a `u32` in the source, modelled as `ℕ`) and its unit price. -/
structure OrderDataExportOrderedItem where
  item : ℕ
  price : ℚ
  deriving DecidableEq

/-- One raw order record (`OrderDataExportOrderItem`).  `datetime` is the
order's timestamp as an instant in seconds. -/
structure OrderDataExportOrderItem where
  fees : List OrderDataExportOrderItemFee
  datetime : ℤ
  total : ℚ
  ordered_items : List OrderDataExportOrderedItem
  deriving DecidableEq

/-- A catalog entry of the event (`ExportResponseSaleItem`). -/
structure ExportResponseSaleItem where
  id : ℕ
  name : String
  tax_rate : ℚ
  deriving DecidableEq

/-! ## Aggregation engine
(`knaaktomatisering/src/modes/weekelijkse_plezier/pretix.rs`) -/

/-- Sum of a list of rationals, folded left-to-right from `0`, matching the
source's `iter().sum::<f32>()` / `fold` accumulation in input order. -/
def qsum (l : List ℚ) : ℚ := l.foldl (· + ·) 0

/-- `item.fees.iter().map(|fee_item| fee_item.value).sum::<f32>()` of
`order_export_calc_totals`. -/
def order_item_fee_sum (item : OrderDataExportOrderItem) : ℚ :=
  qsum (item.fees.map (·.value))

/-- Result type of `order_export_calc_totals` (`OrderExportTotals`). -/
structure OrderExportTotals where
  value : ℚ
  fees : ℚ
  deriving DecidableEq

/-- `order_export_calc_totals` (pretix.rs lines 153-168): map each order to
the pair `(total - fee_sum, fee_sum)` and fold the pairs componentwise,
starting from `(0, 0)`, in input order. -/
def order_export_calc_totals (items : List OrderDataExportOrderItem) :
    OrderExportTotals :=
  let pairs := items.map (fun item =>
    (item.total - order_item_fee_sum item, order_item_fee_sum item))
  let folded := pairs.foldl
    (fun acc p => (acc.1 + p.1, acc.2 + p.2)) ((0 : ℚ), (0 : ℚ))
  { value := folded.1, fees := folded.2 }

/-- The date-window filter of `pretix_totals` (pretix.rs lines 56-63):
`order_item.datetime >= period_start && order_item.datetime <= period_end`. -/
def export_items_filter (orders : List OrderDataExportOrderItem)
    (period_start period_end : ℤ) : List OrderDataExportOrderItem :=
  orders.filter (fun order_item =>
    decide (period_start ≤ order_item.datetime)
      && decide (order_item.datetime ≤ period_end))

/-- The per-order `order.ordered_items.iter().map(|v| (v.item, v.price))
.collect::<HashMap<_, _>>()` of `calc_order_totals_per_sale_item`, modelled
extensionally: inserting left-to-right, a later position with the same item id
overwrites an earlier one (exactly `HashMap` `collect` semantics). -/
def collectPositions (positions : List OrderDataExportOrderedItem) :
    ℕ → Option ℚ :=
  positions.foldl
    (fun m v => fun k => if k = v.item then some v.price else m k)
    (fun _ => none)

/-- Combination of an optional accumulated total with an optional
contribution: the effect at one key of
`totals.entry(item_id).and_modify(|values| *values += item_value)
.or_insert(item_value)`. -/
def optAdd : Option ℚ → Option ℚ → Option ℚ
  | some acc, some v => some (acc + v)
  | some acc, none => some acc
  | none, v => v

/-- Merging one order's position map into the running totals map of
`calc_order_totals_per_sale_item`: pointwise `optAdd`.  The source iterates
the entries of `pos` (in `HashMap` order) updating each key independently;
since distinct keys do not interact, the pointwise form is exact. -/
def mergeTotals (totals pos : ℕ → Option ℚ) : ℕ → Option ℚ :=
  fun k => optAdd (totals k) (pos k)

/-- `calc_order_totals_per_sale_item` (pretix.rs lines 116-142): build each
order's position map (`collectPositions`), then fold them all into one totals
map. -/
def calc_order_totals_per_sale_item (orders : List OrderDataExportOrderItem) :
    ℕ → Option ℚ :=
  (orders.map (fun order => collectPositions order.ordered_items)).foldl
    mergeTotals (fun _ => none)

/-- Left fold of `optAdd` over a list of optional contributions starting from
"absent": `none` when no contribution is present, otherwise the sum of the
present ones (in list order). -/
def listOptSum (l : List (Option ℚ)) : Option ℚ := l.foldl optAdd none

/-- The contribution of one position to the total of sale item `k`. -/
def posOpt (k : ℕ) (p : OrderDataExportOrderedItem) : Option ℚ :=
  if p.item = k then some p.price else none

/-- Per-product totals as the specification's sentence words them: flatten
every record's positions into `(product_id, unit_price)` pairs, group by
`product_id` and sum `unit_price` per group (a product absent from every
record is absent from the map). -/
def flatten_group_totals (orders : List OrderDataExportOrderItem) :
    ℕ → Option ℚ :=
  fun k =>
    listOptSum (((orders.map (·.ordered_items)).flatten).map (posOpt k))

/-- Per-product totals as the code actually computes them: per record, keep
for each product only the last listed price (the `HashMap` collect overwrite),
then sum those per-record values across records. -/
def dedup_group_totals (orders : List OrderDataExportOrderItem) :
    ℕ → Option ℚ :=
  fun k =>
    listOptSum (orders.map (fun order => collectPositions order.ordered_items k))

/-! ## Export-window computation
(`knaaktomatisering/src/modes/weekelijkse_plezier/time_util.rs` and the
prelude of `execute_mode` in `modes/weekelijkse_plezier/mod.rs`) -/

/-- A civil (local) date-time: `day` counts days from an epoch that is a
Monday, `sec` is the second of the day (midnight = `0`). -/
structure LocalDT where
  day : ℤ
  sec : ℤ
  deriving DecidableEq

/-- Weekday of a civil day number: `0` = Monday through `6` = Sunday (the
epoch of `LocalDT.day` is anchored to a Monday). -/
def weekday_index (d : ℤ) : ℤ := d % 7

/-- `last_monday` (time_util.rs lines 8-23): take the current local civil
date, go back by the weekday index (Monday subtracts 0 days, ..., Sunday
subtracts 6 days), and set the time to midnight.  `now` is the current
instant already converted to the requested UTC offset, so quantifying over
`now` covers every offset and every wall-clock instant. -/
def last_monday (now : LocalDT) : LocalDT :=
  { day := now.day - weekday_index now.day, sec := 0 }

/-- `t - Duration::weeks(w)` on an `OffsetDateTime` with a fixed UTC offset:
exact-duration subtraction shifts the civil day by `7 * w` and keeps the
time of day (fixed offsets have no DST transitions). -/
def sub_weeks (t : LocalDT) (w : ℤ) : LocalDT :=
  { day := t.day - 7 * w, sec := t.sec }

/-- `pretix_export_period` (time_util.rs lines 34-54): reject a start that is
not a Monday; otherwise return the start's date at midnight and the date six
days later at midnight. -/
def pretix_export_period (monday : LocalDT) :
    Except String (LocalDT × LocalDT) :=
  if weekday_index monday.day ≠ 0 then
    .error "The 'Monday' provided is not actually a monday"
  else
    .ok ({ day := monday.day, sec := 0 }, { day := monday.day + 6, sec := 0 })

/-- The I/O actions the prelude of `execute_mode` performs, in order, before
the Pretix export runs. -/
inductive ExecEffect where
  | fetchSalesEntry
  | fetchSalesEntryLines
  deriving DecidableEq

/-- The error message of `execute_mode` for `--periods-ago 0`
(mod.rs line 36). -/
def periods_ago_zero_msg : String :=
  "Argument '--periods-ago' may not be 0. 0 would mean you're looking from the most recent monday up until the next sunday, which isn't possible, as that sunday either hasn't happened yet, or it is still sunday."

/-- The prelude of `execute_mode` (mod.rs lines 35-53): reject
`periods_ago == 0` before any I/O (empty effect list); otherwise fetch the
sales entry and its lines, then compute the export period start as
`last_monday(offset) - Duration::weeks(periods_ago)`. -/
def execute_mode_prelude (periods_ago : ℕ) (now : LocalDT) :
    Except String LocalDT × List ExecEffect :=
  if periods_ago = 0 then
    (.error periods_ago_zero_msg, [])
  else
    (.ok (sub_weeks (last_monday now) periods_ago),
      [.fetchSalesEntry, .fetchSalesEntryLines])

/-! ## Export-job poll driver (`pretix_request/src/data_exporter.rs`,
`wait_for_export`, lines 144-185) -/

/-- One HTTP response observed while polling the download URL.  `body` is the
raw response body; `message` is the decoded `message` field of the body
(`None` when the body does not decode to one, in which case the source's
`response.json().await?` fails with a request error). -/
structure PollResponse where
  status : ℕ
  body : String
  message : Option String
  deriving DecidableEq

/-- Terminal outcome of `wait_for_export`. -/
inductive PollResult where
  /-- HTTP 200: the export is ready, the response body is returned. -/
  | success (body : String)
  /-- HTTP 410: the export failed with the server-provided message. -/
  | exportFail (reason : String)
  /-- Any other status: `ExporterError::Other` carrying the raw status. -/
  | otherStatus (status : ℕ)
  /-- HTTP 410 whose body did not decode: the `?` on `response.json()`. -/
  | decodeError
  deriving DecidableEq

/-- `wait_for_export` run against a given sequence of poll responses.  The
result pairs the total seconds slept (one second per CONFLICT response, the
fixed `tokio::time::sleep(Duration::from_secs(1))`) with the terminal
outcome; `none` means the whole sequence was CONFLICT responses and the
driver is still polling (the source loops with no retry limit). -/
def wait_for_export : List PollResponse → Option (ℕ × PollResult)
  | [] => none
  | r :: rest =>
    if r.status = 409 then
      (wait_for_export rest).map (fun p => (p.1 + 1, p.2))
    else if r.status = 200 then
      some (0, .success r.body)
    else if r.status = 410 then
      match r.message with
      | some m => some (0, .exportFail m)
      | none => some (0, .decodeError)
    else
      some (0, .otherStatus r.status)

/-! ## Filter expression builder (`exact_filter/src/lib.rs`) -/

/-- Shorthand: the character list of a string literal. -/
def str (s : String) : List Char := s.data

/-- `FilterOp` (lib.rs lines 6-13), with the source's spelling of the
greater-or-equal constructor. -/
inductive FilterOp where
  | Equals
  | NotEqual
  | GreaterThan
  | GreatherThanEquals
  | LessThan
  | LessThanEquals
  deriving DecidableEq

/-- `FilterOp::serialize` (lib.rs lines 63-75). -/
def FilterOp.serialize : FilterOp → List Char
  | .Equals => str "eq"
  | .NotEqual => str "ne"
  | .GreaterThan => str "gt"
  | .GreatherThanEquals => str "ge"
  | .LessThan => str "lt"
  | .LessThanEquals => str "le"

/-- A filter value: either a plain string-like value or a `Guid` (the two
`FilterValue` impls of lib.rs lines 35-48, as the closed variant type the
spec's design notes describe). -/
inductive FilterValue where
  | plain (s : List Char)
  | guid (s : List Char)

/-- `FilterValue::serialize`: a plain value is wrapped in single quotes, a
`Guid` serializes as `guid'<value>'`. -/
def FilterValue.serialize : FilterValue → List Char
  | .plain s => '\'' :: (s ++ ['\''])
  | .guid s => str "guid" ++ ('\'' :: (s ++ ['\'']))

/-- The builder state: the string built so far (lib.rs line 4). -/
structure Filter where
  s : List Char

/-- `Filter::format_filter_string` (lib.rs lines 168-179):
`"{key}+{op}+{value}"`. -/
def format_filter_string (key : List Char) (value : FilterValue)
    (op : FilterOp) : List Char :=
  key ++ ('+' :: op.serialize) ++ ('+' :: value.serialize)

/-- `Filter::new` (lib.rs lines 110-112). -/
def Filter.new (key : List Char) (value : FilterValue) (op : FilterOp) :
    Filter :=
  { s := format_filter_string key value op }

/-- `Filter::push_operation` (lib.rs lines 137-148):
append `"+{name}+{key}+{op}+{value}"`. -/
def Filter.push_operation (f : Filter) (name : List Char) (key : List Char)
    (value : FilterValue) (op : FilterOp) : Filter :=
  { s := f.s ++ ('+' :: (name ++ ('+' :: format_filter_string key value op))) }

/-- `Filter::and` (lib.rs lines 115-123). -/
def Filter.and (f : Filter) (key : List Char) (value : FilterValue)
    (op : FilterOp) : Filter :=
  f.push_operation (str "and") key value op

/-- `Filter::or` (lib.rs lines 126-134). -/
def Filter.or (f : Filter) (key : List Char) (value : FilterValue)
    (op : FilterOp) : Filter :=
  f.push_operation (str "or") key value op

/-- `Filter::join` (lib.rs lines 163-165): `"({self}+{op}+{other})"`. -/
def Filter.join (f : Filter) (other : Filter) (op : List Char) : Filter :=
  { s := ('(' :: (f.s ++ ('+' :: (op ++ ('+' :: other.s))))) ++ [')'] }

/-- `Filter::join_and` (lib.rs lines 151-154). -/
def Filter.join_and (f : Filter) (other : Filter) : Filter :=
  f.join other (str "and")

/-- `Filter::join_or` (lib.rs lines 157-160). -/
def Filter.join_or (f : Filter) (other : Filter) : Filter :=
  f.join other (str "or")

/-- `Filter::finalize` (lib.rs lines 182-189): when the string starts with
`(` and ends with `)`, remove the first and the last character; then return
the string. -/
def Filter.finalize (f : Filter) : List Char :=
  if f.s.head? = some '(' ∧ f.s.getLast? = some ')' then
    f.s.tail.dropLast
  else
    f.s

/-! ## Ledger-line classifier, split-per-product mode
(`knaaktomatisering/src/modes/weekelijkse_plezier/mod.rs`, lines 85-171)

Regex matching is abstracted to a predicate `String → Bool`: the classifier's
control flow only ever calls `Regex::is_match`.  The configuration's
`cost_centers_per_product` is a `std::collections::HashMap`, whose iteration
order is unspecified; the `cost_centers` vector of mod.rs lines 85-95 is
built in that iteration order, so the embedding takes the iterated entry list
as an explicit parameter. -/

/-- One resolved cost-center entry of the `cost_centers` vector (mod.rs
lines 85-95): the compiled pattern and the configured cost-center code (the
code is what the emitted line shows; the fetched GUID plays no further role
in the classification decisions). -/
structure CostCenterEntry where
  pattern : String → Bool
  code : String

/-- The cost-center resolution of mod.rs lines 127-135: the first entry of
the iterated list whose pattern matches the item name, if any. -/
def find_cost_center (cost_centers : List CostCenterEntry) (name : String) :
    Option String :=
  (cost_centers.find? (fun e => e.pattern name)).map (·.code)

/-- One configured VAT code with its percentage (`config.exact.vat_codes`
entries consulted at mod.rs lines 148-156). -/
structure VatCodeEntry where
  code : String
  percentage : ℚ

/-- The classification failures of the split-per-product loop, each carrying
the offending item name. -/
inductive ClassifyError where
  | noCostCenter (item : String)
  | noSaleItem (item : String)
  | noVatRate (item : String)
  deriving DecidableEq

/-- One emitted sale-line descriptor: either a per-product line (mod.rs
lines 162-165) or the transaction-fee line (mod.rs lines 168-171). -/
inductive SaleLine where
  | product (gl_account : String) (cost_center : String) (vat_pct : ℚ)
      (name : String) (amount : ℚ)
  | fee (gl_account : String) (name : String) (amount : ℚ)
  deriving DecidableEq

/-- The classifier inputs for one event in split-per-product mode. -/
structure ClassifierConfig where
  /-- Compiled `ignore_products` patterns of the event configuration. -/
  ignore_products : List (String → Bool)
  /-- The `cost_centers` vector, in `HashMap` iteration order. -/
  cost_centers : List CostCenterEntry
  /-- The event's sale-item catalog (`summary.sale_items`). -/
  sale_items : List ExportResponseSaleItem
  /-- `config.exact.vat_codes`. -/
  vat_codes : List VatCodeEntry
  /-- The event's configured GL account code. -/
  gl_account : String
  /-- `config.exact.gl_accounts.bookkeeping`. -/
  bookkeeping_gl : String
  /-- `format!("Pretix {}", summary.event_name)`. -/
  line_name : String

/-- Whether an item name matches any ignore pattern (mod.rs lines 111-117). -/
def is_ignored (cfg : ClassifierConfig) (name : String) : Bool :=
  cfg.ignore_products.any (fun p => p name)

/-- One iteration of the `for (item_key, line_value)` loop (mod.rs lines
108-166): skip ignored items (`none`); fail when no cost-center pattern
matches; find the sale item by name, failing when absent; fail when no
configured VAT code's percentage equals the sale item's tax rate; otherwise
emit the product line. -/
def classify_product (cfg : ClassifierConfig) (item : String × ℚ) :
    Except ClassifyError (Option SaleLine) :=
  if is_ignored cfg item.1 then
    .ok none
  else
    match find_cost_center cfg.cost_centers item.1 with
    | none => .error (.noCostCenter item.1)
    | some cc =>
      match cfg.sale_items.find? (fun sale_item => sale_item.name = item.1) with
      | none => .error (.noSaleItem item.1)
      | some sale_item =>
        match cfg.vat_codes.find?
            (fun code => code.percentage = sale_item.tax_rate) with
        | none => .error (.noVatRate item.1)
        | some vat_code =>
          .ok (some (.product cfg.gl_account cc vat_code.percentage
            (cfg.line_name ++ " | " ++ item.1) item.2))

/-- The whole `for` loop over `summary.items` (in its iteration order):
process items sequentially, aborting on the first error, collecting the
emitted product lines in order. -/
def classify_products (cfg : ClassifierConfig) :
    List (String × ℚ) → Except ClassifyError (List SaleLine)
  | [] => .ok []
  | item :: rest =>
    match classify_product cfg item with
    | .error e => .error e
    | .ok line =>
      match classify_products cfg rest with
      | .error e => .error e
      | .ok lines => .ok (line.toList ++ lines)

/-- Split-per-product classification of one event (mod.rs lines 103-171):
the product lines of the loop followed by the single transaction-fee line
(`trx_line_name`, bookkeeping GL account, the summary's fee total). -/
def classify_split (cfg : ClassifierConfig) (items : List (String × ℚ))
    (fee_total : ℚ) : Except ClassifyError (List SaleLine) :=
  match classify_products cfg items with
  | .error e => .error e
  | .ok lines =>
    .ok (lines ++
      [.fee cfg.bookkeeping_gl (cfg.line_name ++ " | Transactiekosten")
        fee_total])

/-- Number of product lines among the emitted lines. -/
def count_product_lines (lines : List SaleLine) : ℕ :=
  (lines.filter (fun l => match l with
    | .product _ _ _ _ _ => true
    | .fee _ _ _ => false)).length

/-- Number of fee lines among the emitted lines. -/
def count_fee_lines (lines : List SaleLine) : ℕ :=
  (lines.filter (fun l => match l with
    | .product _ _ _ _ _ => false
    | .fee _ _ _ => true)).length

/-! ## Exact client (`exact_request/src/lib.rs` and `src/api`) -/

/-- `NoDivisionError` (lib.rs lines 24-26). -/
inductive NoDivisionError where
  | noDivision
  deriving DecidableEq

/-- `ExactError` (lib.rs lines 11-17); the transport variant needs no
payload for the claims under study. -/
inductive ExactError where
  | request
  | noAccountingDivision (e : NoDivisionError)
  deriving DecidableEq

/-- The claim-relevant state of `ExactClient`: the cached accounting
division (lib.rs lines 19-22).  The wrapped HTTP client carries no state the
claims depend on. -/
structure ExactClient where
  accounting_division : Option ℤ
  deriving DecidableEq

/-- `ExactClient::url` (lib.rs lines 58-60). -/
def ExactClient.url (s : String) : String :=
  "https://start.exactonline.nl" ++ s

/-- `ExactClient::divisioned_url` (lib.rs lines 69-76): fail with
`NoDivisionError` when no accounting division is set, otherwise prefix the
path with `/api/v1/{division}`. -/
def ExactClient.divisioned_url (c : ExactClient) (s : String) :
    Except NoDivisionError String :=
  match c.accounting_division with
  | none => .error .noDivision
  | some div => .ok (ExactClient.url ("/api/v1/" ++ toString div ++ s))

/-- `ExactClient::set_division` (lib.rs lines 79-81). -/
def ExactClient.set_division (_c : ExactClient) (accounting_division : ℤ) :
    ExactClient :=
  { accounting_division := some accounting_division }

/-- `ExactPayload::value` (lib.rs lines 109-111):
`self.d.results.into_iter().nth(0).unwrap()`.  The payload is its decoded
`d.results` list; `none` models the `unwrap` panic on an empty list. -/
def exact_payload_value {α : Type} (results : List α) : Option α :=
  results.head?

/-- Outcome of an Exact API call: a value, a propagated error, or a panic
(an `unwrap` failure, which in the source aborts instead of returning). -/
inductive ApiOutcome (α : Type) where
  | ok (value : α)
  | err (e : ExactError)
  | panicked
  deriving DecidableEq

/-- The path `get_sales_entry_for_entry_number` passes to `divisioned_url`
(api/sales_entry.rs lines 16-18). -/
def sales_entry_path (number : ℤ) : String :=
  "/salesentry/SalesEntries?$filter=EntryNumber+eq+" ++ toString number
    ++ "&$select=EntryID"

/-- The path `get_cost_center_by_code` passes to `divisioned_url`
(api/cost_center.rs lines 16-19). -/
def cost_center_path (code : String) : String :=
  "/hrm/Costcenters?$filter=Code+eq+'" ++ code ++ "'&$select=ID"

/-- `get_sales_entry_for_entry_number` (api/sales_entry.rs lines 5-26),
against a network oracle `net` mapping a URL to the decoded `d.results`
list of the response (each result its `EntryID` GUID).  The second component
is the list of URLs actually requested: the `?` on `divisioned_url` fires
before `.send()`, so on the no-division path it is empty. -/
def get_sales_entry_for_entry_number (net : String → List String)
    (c : ExactClient) (number : ℤ) : ApiOutcome String × List String :=
  match c.divisioned_url (sales_entry_path number) with
  | .error e => (.err (.noAccountingDivision e), [])
  | .ok url =>
    match exact_payload_value (net url) with
    | none => (.panicked, [url])
    | some entry_id => (.ok entry_id, [url])

/-- `get_cost_center_by_code` (api/cost_center.rs lines 5-27), modelled the
same way (`net url` is the decoded `d.results` list, each result its `ID`). -/
def get_cost_center_by_code (net : String → List String)
    (c : ExactClient) (code : String) : ApiOutcome String × List String :=
  match c.divisioned_url (cost_center_path code) with
  | .error e => (.err (.noAccountingDivision e), [])
  | .ok url =>
    match exact_payload_value (net url) with
    | none => (.panicked, [url])
    | some id => (.ok id, [url])

/-! ## Concrete inputs used by examples, witnesses and counterexamples -/

/-- An order with the given timestamp and no fees or positions. -/
def boundary_order (t : ℤ) : OrderDataExportOrderItem :=
  { fees := [], datetime := t, total := 0, ordered_items := [] }

/-- A single order whose positions list the same product (id 1) twice, at
price 10 each. -/
def dup_position_order : OrderDataExportOrderItem :=
  { fees := [], datetime := 0, total := 20,
    ordered_items := [{ item := 1, price := 10 }, { item := 1, price := 10 }] }

/-- Two records, each selling product 1 at price 10 and product 2 at
price 5 (the spec's per-product-totals example). -/
def two_record_example : List OrderDataExportOrderItem :=
  [ { fees := [], datetime := 0, total := 15,
      ordered_items := [{ item := 1, price := 10 }, { item := 2, price := 5 }] },
    { fees := [], datetime := 0, total := 15,
      ordered_items := [{ item := 1, price := 10 }, { item := 2, price := 5 }] } ]

/-- A CONFLICT (409) poll response. -/
def conflict_response : PollResponse :=
  { status := 409, body := "", message := none }

/-- An OK (200) poll response with the given body. -/
def ok_response (body : String) : PollResponse :=
  { status := 200, body := body, message := none }

/-- A GONE (410) poll response whose body decodes to the given message. -/
def gone_response (message : String) : PollResponse :=
  { status := 410, body := "", message := some message }

/-- A 503 poll response. -/
def unavailable_response : PollResponse :=
  { status := 503, body := "", message := none }

/-- A cost-center entry whose pattern matches exactly the name `x`,
cost-center code `A`. -/
def cc_entry_a : CostCenterEntry :=
  { pattern := fun s => s == "x", code := "A" }

/-- A cost-center entry whose pattern also matches exactly the name `x`,
cost-center code `B`. -/
def cc_entry_b : CostCenterEntry :=
  { pattern := fun s => s == "x", code := "B" }

/-- A cost-center entry whose pattern matches exactly the name `y`. -/
def cc_entry_y : CostCenterEntry :=
  { pattern := fun s => s == "y", code := "C" }

/-- A classifier configuration with one catch-all cost-center pattern, one
sale item `Free` with tax rate 21 and a matching VAT code — nothing is
ignored. -/
def cfg_zero : ClassifierConfig :=
  { ignore_products := []
    cost_centers := [{ pattern := fun _ => true, code := "CC" }]
    sale_items := [{ id := 1, name := "Free", tax_rate := 21 }]
    vat_codes := [{ code := "V1", percentage := 21 }]
    gl_account := "8000"
    bookkeeping_gl := "5007"
    line_name := "Pretix Ev" }

/-- The spec's split-mode example configuration: two sale items, each
matching its own cost-center pattern, one ignored product name, VAT codes
for both tax rates. -/
def cfg_split_example : ClassifierConfig :=
  { ignore_products := [fun s => s == "Algemene Introductie"]
    cost_centers :=
      [ { pattern := fun s => s == "Ticket A", code := "CCA" },
        { pattern := fun s => s == "Ticket B", code := "CCB" } ]
    sale_items :=
      [ { id := 1, name := "Ticket A", tax_rate := 21 },
        { id := 2, name := "Ticket B", tax_rate := 9 },
        { id := 3, name := "Algemene Introductie", tax_rate := 21 } ]
    vat_codes :=
      [ { code := "V21", percentage := 21 }, { code := "V9", percentage := 9 } ]
    gl_account := "8000"
    bookkeeping_gl := "5007"
    line_name := "Pretix Intro" }

/-- The per-product totals the split-mode example classifies: both ticket
products and the ignored product. -/
def split_example_items : List (String × ℚ) :=
  [("Ticket A", 100), ("Ticket B", 50), ("Algemene Introductie", 30)]

/-! ## Helper lemmas -/

theorem foldl_add_shift (l : List ℚ) (x : ℚ) :
    l.foldl (· + ·) x = x + l.foldl (· + ·) 0 := by
  induction l generalizing x with
  | nil => simp
  | cons a t ih =>
    simp only [List.foldl_cons]
    rw [ih (x + a), ih (0 + a)]
    ring

theorem qsum_nil : qsum [] = 0 := rfl

theorem qsum_cons (x : ℚ) (l : List ℚ) : qsum (x :: l) = x + qsum l := by
  simp only [qsum, List.foldl_cons]
  rw [foldl_add_shift]
  ring

theorem qsum_map_sub {α : Type} (f g : α → ℚ) (l : List α) :
    qsum (l.map (fun i => f i - g i)) = qsum (l.map f) - qsum (l.map g) := by
  induction l with
  | nil => simp [qsum_nil]
  | cons a t ih => simp only [List.map_cons, qsum_cons, ih]; ring

theorem foldl_pair_sum (ps : List (ℚ × ℚ)) (a b : ℚ) :
    ps.foldl (fun acc p => (acc.1 + p.1, acc.2 + p.2)) (a, b)
      = (a + qsum (ps.map Prod.fst), b + qsum (ps.map Prod.snd)) := by
  induction ps generalizing a b with
  | nil => simp [qsum_nil]
  | cons p t ih =>
    simp only [List.foldl_cons, List.map_cons, qsum_cons, ih, Prod.mk.injEq]
    exact ⟨by ring, by ring⟩

/-! ## Claim C2 -/

/-- C2: `order_export_calc_totals` returns `value` equal to the sum over
records, in input order, of `record.total` minus that record's fee-value sum,
and `fees` equal to the sum over records of their fee-value sums; hence
`value = sum(total) - sum(fees)` exactly, and for a window covering all
records the totals of the filtered list equal the totals of the whole
list. -/
theorem order_export_calc_totals_spec (items : List OrderDataExportOrderItem) :
    (order_export_calc_totals items).value
        = qsum (items.map (fun i => i.total - order_item_fee_sum i))
    ∧ (order_export_calc_totals items).fees
        = qsum (items.map order_item_fee_sum)
    ∧ (order_export_calc_totals items).value
        = qsum (items.map (·.total)) - qsum (items.map order_item_fee_sum)
    ∧ ∀ ps pe : ℤ, (∀ o ∈ items, ps ≤ o.datetime ∧ o.datetime ≤ pe) →
        order_export_calc_totals (export_items_filter items ps pe)
          = order_export_calc_totals items := by
  have hfold :
      order_export_calc_totals items
        = { value := qsum (items.map (fun i => i.total - order_item_fee_sum i)),
            fees := qsum (items.map order_item_fee_sum) } := by
    simp only [order_export_calc_totals, foldl_pair_sum, List.map_map]
    simp [Function.comp_def]
  refine ⟨by rw [hfold], by rw [hfold], ?_, ?_⟩
  · rw [hfold]
    show qsum (items.map (fun i => i.total - order_item_fee_sum i)) = _
    rw [qsum_map_sub (fun i => i.total) order_item_fee_sum]
  · intro ps pe h
    have : export_items_filter items ps pe = items := by
      apply List.filter_eq_self.mpr
      intro o ho
      rcases h o ho with ⟨h1, h2⟩
      simp [h1, h2]
    rw [this]

/-- Witness for C2: the window conjunct discharged at a concrete input. -/
theorem order_export_calc_totals_spec_witness :
    order_export_calc_totals
        (export_items_filter [boundary_order 3] 0 100)
      = order_export_calc_totals [boundary_order 3] :=
  (order_export_calc_totals_spec [boundary_order 3]).2.2.2 0 100
    (by decide)

/-! ## Claim C5 -/

/-- C5: the date-window filter of `pretix_totals` is inclusive on both ends:
a record is retained iff `period_start ≤ datetime ≤ period_end`; a record
whose timestamp equals either boundary exactly is included, and a record one
second outside either boundary is excluded. -/
theorem export_items_filter_inclusive :
    (∀ (orders : List OrderDataExportOrderItem) (ps pe : ℤ)
        (o : OrderDataExportOrderItem),
      o ∈ export_items_filter orders ps pe
        ↔ o ∈ orders ∧ ps ≤ o.datetime ∧ o.datetime ≤ pe)
    ∧ export_items_filter
        [boundary_order 0, boundary_order 100,
          boundary_order (-1), boundary_order 101] 0 100
      = [boundary_order 0, boundary_order 100] := by
  constructor
  · intro orders ps pe o
    simp [export_items_filter, List.mem_filter, and_assoc]
  · decide

/-! ## Claim C3 -/

theorem wait_for_export_conflict_run (pre : List PollResponse)
    (hpre : ∀ r ∈ pre, r.status = 409) (tail : List PollResponse) :
    wait_for_export (pre ++ tail)
      = (wait_for_export tail).map (fun p => (p.1 + pre.length, p.2)) := by
  induction pre with
  | nil =>
    cases h : wait_for_export tail <;> simp [h]
  | cons r t ih =>
    have hr : r.status = 409 := hpre r (List.mem_cons_self r t)
    have ht : ∀ x ∈ t, x.status = 409 :=
      fun x hx => hpre x (List.mem_cons_of_mem r hx)
    have step : wait_for_export (r :: (t ++ tail))
        = (wait_for_export (t ++ tail)).map (fun p => (p.1 + 1, p.2)) := by
      simp [wait_for_export, hr]
    rw [List.cons_append, step, ih ht]
    cases h : wait_for_export tail
    · simp [h]
    · simp [h]; omega

/-- C3: `wait_for_export` as a state machine over the observed poll
responses: every CONFLICT (409) response keeps it pending for one more
1-second sleep; after any number of CONFLICT responses, the first OK (200)
returns that response's body, the first GONE (410) returns an `ExportFail`
carrying exactly the decoded message, and the first response of any other
status returns an `Other` error carrying that raw status; a stream of only
CONFLICT responses leaves the driver still polling (no retry limit).  The
first component of the result counts the seconds slept, one per CONFLICT. -/
theorem wait_for_export_spec :
    (∀ (pre : List PollResponse), (∀ r ∈ pre, r.status = 409) →
      ∀ (r : PollResponse) (rest : List PollResponse),
        (r.status = 200 →
          wait_for_export (pre ++ r :: rest)
            = some (pre.length, .success r.body))
        ∧ (∀ m, r.status = 410 → r.message = some m →
          wait_for_export (pre ++ r :: rest)
            = some (pre.length, .exportFail m))
        ∧ (r.status ≠ 409 → r.status ≠ 200 → r.status ≠ 410 →
          wait_for_export (pre ++ r :: rest)
            = some (pre.length, .otherStatus r.status)))
    ∧ wait_for_export [conflict_response, conflict_response, ok_response "B"]
        = some (2, .success "B")
    ∧ wait_for_export [gone_response "boom"] = some (0, .exportFail "boom")
    ∧ wait_for_export [unavailable_response] = some (0, .otherStatus 503)
    ∧ (∀ (pre : List PollResponse), (∀ r ∈ pre, r.status = 409) →
        wait_for_export pre = none) := by
  refine ⟨?_, by decide, by decide, by decide, ?_⟩
  · intro pre hpre r rest
    refine ⟨?_, ?_, ?_⟩
    · intro h200
      rw [wait_for_export_conflict_run pre hpre]
      simp [wait_for_export, h200]
    · intro m h410 hmsg
      rw [wait_for_export_conflict_run pre hpre]
      simp [wait_for_export, h410, hmsg]
    · intro h409 h200 h410
      rw [wait_for_export_conflict_run pre hpre]
      simp [wait_for_export, h409, h200, h410]
  · intro pre hpre
    have := wait_for_export_conflict_run pre hpre []
    simpa [wait_for_export] using this

/-- Witness for C3: the general state-machine conjuncts applied at concrete
inputs (one CONFLICT, then each terminal status). -/
theorem wait_for_export_spec_witness :
    wait_for_export [conflict_response, ok_response "done"]
        = some (1, .success "done")
    ∧ wait_for_export [conflict_response, gone_response "failed"]
        = some (1, .exportFail "failed")
    ∧ wait_for_export [conflict_response, unavailable_response]
        = some (1, .otherStatus 503)
    ∧ wait_for_export [conflict_response] = none := by
  have h := wait_for_export_spec
  have hpre : ∀ r ∈ [conflict_response], r.status = 409 := by decide
  refine ⟨?_, ?_, ?_, h.2.2.2.2 [conflict_response] hpre⟩
  · exact (h.1 [conflict_response] hpre (ok_response "done") []).1 rfl
  · exact (h.1 [conflict_response] hpre (gone_response "failed") []).2.1
      "failed" rfl rfl
  · exact (h.1 [conflict_response] hpre unavailable_response []).2.2
      (by decide) (by decide) (by decide)

/-! ## Claim C4 -/

/-- C4: for every local wall-clock instant (hence every UTC offset) and every
`periods_ago ≥ 1`, the export window start `last_monday(offset) -
periods_ago weeks` computed by `execute_mode` is a Monday at local midnight,
and `pretix_export_period` on it succeeds with that Monday and the date
exactly six days later at local midnight (its non-Monday precondition error
is unreachable on these inputs); for `periods_ago = 0`, `execute_mode` fails
with the descriptive user error before performing any I/O (empty effect
list). -/
theorem export_window_spec (now : LocalDT) (periods_ago : ℕ)
    (h : 1 ≤ periods_ago) :
    (execute_mode_prelude periods_ago now).1
        = .ok (sub_weeks (last_monday now) periods_ago)
    ∧ weekday_index (sub_weeks (last_monday now) periods_ago).day = 0
    ∧ (sub_weeks (last_monday now) periods_ago).sec = 0
    ∧ pretix_export_period (sub_weeks (last_monday now) periods_ago)
        = .ok (sub_weeks (last_monday now) periods_ago,
            { day := (sub_weeks (last_monday now) periods_ago).day + 6,
              sec := 0 })
    ∧ execute_mode_prelude 0 now = (.error periods_ago_zero_msg, []) := by
  have hne : periods_ago ≠ 0 := by omega
  have hmon : weekday_index (sub_weeks (last_monday now) periods_ago).day
      = 0 := by
    simp only [sub_weeks, last_monday, weekday_index]
    omega
  refine ⟨by simp [execute_mode_prelude, hne], hmon, rfl, ?_,
    by simp [execute_mode_prelude]⟩
  simp only [pretix_export_period, hmon]
  simp [sub_weeks, last_monday]

/-- Witness for C4 at a concrete local instant and `periods_ago = 1`. -/
theorem export_window_spec_witness :
    weekday_index (sub_weeks (last_monday { day := 10, sec := 3600 }) 1).day
        = 0
    ∧ pretix_export_period (sub_weeks (last_monday { day := 10, sec := 3600 }) 1)
        = .ok (sub_weeks (last_monday { day := 10, sec := 3600 }) 1,
            { day := (sub_weeks (last_monday { day := 10, sec := 3600 }) 1).day
                + 6,
              sec := 0 }) := by
  have h := export_window_spec { day := 10, sec := 3600 } 1 (by decide)
  exact ⟨h.2.1, h.2.2.2.1⟩

/-! ## Claim C9 -/

/-- C9: division-scoped Exact API calls fail with `NoDivisionError` exactly
when the client's accounting division is unset, and the rejection happens in
`divisioned_url` before any HTTP request is issued (the list of requested
URLs is empty on that path); once `set_division` has been called,
`divisioned_url` never returns this error. -/
theorem divisioned_url_spec :
    (∀ (c : ExactClient) (s : String),
      c.divisioned_url s = .error .noDivision ↔ c.accounting_division = none)
    ∧ (∀ (c : ExactClient) (d : ℤ) (s : String),
      (c.set_division d).divisioned_url s
        = .ok (ExactClient.url ("/api/v1/" ++ toString d ++ s)))
    ∧ (∀ (net : String → List String) (c : ExactClient) (number : ℤ),
      c.accounting_division = none →
        get_sales_entry_for_entry_number net c number
          = (.err (.noAccountingDivision .noDivision), []))
    ∧ (∀ (net : String → List String) (c : ExactClient) (code : String),
      c.accounting_division = none →
        get_cost_center_by_code net c code
          = (.err (.noAccountingDivision .noDivision), [])) := by
  refine ⟨?_, ?_, ?_, ?_⟩
  · intro c s
    cases hdiv : c.accounting_division <;>
      simp [ExactClient.divisioned_url, hdiv]
  · intro c d s
    simp [ExactClient.divisioned_url, ExactClient.set_division]
  · intro net c number hdiv
    simp [get_sales_entry_for_entry_number, ExactClient.divisioned_url, hdiv]
  · intro net c code hdiv
    simp [get_cost_center_by_code, ExactClient.divisioned_url, hdiv]

/-- Witness for C9: a division-less client is rejected with no request
issued, and a client with the division set gets the divisioned URL. -/
theorem divisioned_url_spec_witness :
    get_sales_entry_for_entry_number (fun _ => [])
        { accounting_division := none } 7
      = (.err (.noAccountingDivision .noDivision), [])
    ∧ ExactClient.divisioned_url
        (ExactClient.set_division { accounting_division := none } 55861) "/x"
      = .ok (ExactClient.url ("/api/v1/" ++ toString (55861 : ℤ) ++ "/x")) :=
  ⟨divisioned_url_spec.2.2.1 (fun _ => []) { accounting_division := none } 7
      rfl,
    divisioned_url_spec.2.1 { accounting_division := none } 55861 "/x"⟩

/-! ## Claim C10 -/

/-- C10: `ExactPayload::value` takes the first element of `d.results` with an
unchecked `unwrap`, so it panics exactly when the results list is empty (its
non-panicking behaviour requires a nonempty results list); consequently
`get_cost_center_by_code` and `get_sales_entry_for_entry_number` panic, after
issuing their one request, whenever the response's results list is empty —
no descriptive error is returned. -/
theorem exact_payload_value_spec :
    (∀ (α : Type) (results : List α),
      exact_payload_value results = none ↔ results = [])
    ∧ (∀ (α : Type) (x : α) (rest : List α),
      exact_payload_value (x :: rest) = some x)
    ∧ (∀ (net : String → List String) (c : ExactClient) (code : String)
        (d : ℤ) (url : String),
      c.accounting_division = some d →
      c.divisioned_url (cost_center_path code) = .ok url →
      net url = [] →
        get_cost_center_by_code net c code = (.panicked, [url]))
    ∧ (∀ (net : String → List String) (c : ExactClient) (number : ℤ)
        (d : ℤ) (url : String),
      c.accounting_division = some d →
      c.divisioned_url (sales_entry_path number) = .ok url →
      net url = [] →
        get_sales_entry_for_entry_number net c number
          = (.panicked, [url])) := by
  refine ⟨?_, ?_, ?_, ?_⟩
  · intro α results
    cases results <;> simp [exact_payload_value]
  · intro α x rest
    simp [exact_payload_value]
  · intro net c code d url hdiv hurl hempty
    simp [get_cost_center_by_code, hurl, hempty, exact_payload_value]
  · intro net c number d url hdiv hurl hempty
    simp [get_sales_entry_for_entry_number, hurl, hempty, exact_payload_value]

/-- Witness for C10: a cost-center lookup whose response has an empty results
list panics after its single request. -/
theorem exact_payload_value_spec_witness :
    get_cost_center_by_code (fun _ => [])
        { accounting_division := some 55861 } "TRX"
      = (.panicked,
          [ExactClient.url ("/api/v1/" ++ toString (55861 : ℤ)
            ++ cost_center_path "TRX")]) :=
  exact_payload_value_spec.2.2.1 (fun _ => [])
    { accounting_division := some 55861 } "TRX" 55861
    (ExactClient.url ("/api/v1/" ++ toString (55861 : ℤ)
      ++ cost_center_path "TRX"))
    rfl rfl rfl

/-! ## Claim C8 -/

theorem serialize_ends_apostrophe (v : FilterValue) :
    ∃ p : List Char, v.serialize = p ++ ['\''] := by
  cases v with
  | plain s =>
    exact ⟨'\'' :: s, by simp [FilterValue.serialize]⟩
  | guid s =>
    exact ⟨str "guid" ++ ('\'' :: s), by simp [FilterValue.serialize]⟩

theorem format_filter_string_ends_apostrophe (k : List Char)
    (v : FilterValue) (op : FilterOp) :
    ∃ p : List Char, format_filter_string k v op = p ++ ['\''] := by
  obtain ⟨p, hp⟩ := serialize_ends_apostrophe v
  exact ⟨k ++ ('+' :: op.serialize) ++ ('+' :: p), by
    simp [format_filter_string, hp]⟩

theorem push_operation_ends_apostrophe (f : Filter) (name k : List Char)
    (v : FilterValue) (op : FilterOp) :
    ∃ p : List Char, (f.push_operation name k v op).s = p ++ ['\''] := by
  obtain ⟨p, hp⟩ := format_filter_string_ends_apostrophe k v op
  exact ⟨f.s ++ ('+' :: (name ++ ('+' :: p))), by
    simp [Filter.push_operation, hp]⟩

theorem finalize_of_ends_apostrophe (f : Filter)
    (h : ∃ p : List Char, f.s = p ++ ['\'']) : f.finalize = f.s := by
  obtain ⟨p, hp⟩ := h
  unfold Filter.finalize
  rw [if_neg]
  intro hcond
  have hlast := hcond.2
  rw [hp, List.getLast?_concat] at hlast
  simp at hlast

/-- C8: the filter builder's grammar.  `Filter::new(key, value, op)` followed
by `finalize` yields `key+op+value`, where each operator serializes to its
fixed two-letter token, a plain value is wrapped in single quotes and a
`Guid` value serializes as `guid'<value>'`; `.and`/`.or` append the literal
`+and+`/`+or+` token followed by the next `key+op+value` clause (and
`finalize` leaves such a chain unchanged); `join_and`/`join_or` wrap both
sides in exactly one parenthesis pair joined by the token, and `finalize`
strips exactly one outer parenthesis pair exactly when the whole string is
parenthesized (first character `(` and last character `)`); the spec's
chained example produces `(Bar+eq+'bar'+and+Foo+ne+'foo')+or+Bar+eq+'baz'`. -/
theorem filter_builder_spec :
    (∀ (k : List Char) (v : FilterValue) (op : FilterOp),
      (Filter.new k v op).finalize = format_filter_string k v op)
    ∧ (∀ (k : List Char) (v : FilterValue) (op : FilterOp),
      format_filter_string k v op
        = k ++ str "+" ++ op.serialize ++ str "+" ++ v.serialize)
    ∧ (∀ s : List Char,
      (FilterValue.plain s).serialize = str "'" ++ s ++ str "'")
    ∧ (∀ s : List Char,
      (FilterValue.guid s).serialize = str "guid'" ++ s ++ str "'")
    ∧ (FilterOp.Equals.serialize = str "eq"
        ∧ FilterOp.NotEqual.serialize = str "ne"
        ∧ FilterOp.GreaterThan.serialize = str "gt"
        ∧ FilterOp.GreatherThanEquals.serialize = str "ge"
        ∧ FilterOp.LessThan.serialize = str "lt"
        ∧ FilterOp.LessThanEquals.serialize = str "le")
    ∧ (∀ (f : Filter) (k : List Char) (v : FilterValue) (op : FilterOp),
      (f.and k v op).s = f.s ++ str "+and+" ++ format_filter_string k v op)
    ∧ (∀ (f : Filter) (k : List Char) (v : FilterValue) (op : FilterOp),
      (f.or k v op).s = f.s ++ str "+or+" ++ format_filter_string k v op)
    ∧ (∀ (k1 : List Char) (v1 : FilterValue) (o1 : FilterOp)
        (k2 : List Char) (v2 : FilterValue) (o2 : FilterOp),
      ((Filter.new k1 v1 o1).and k2 v2 o2).finalize
        = ((Filter.new k1 v1 o1).and k2 v2 o2).s)
    ∧ (∀ f g : Filter,
      (f.join_and g).s = str "(" ++ f.s ++ str "+and+" ++ g.s ++ str ")")
    ∧ (∀ f g : Filter,
      (f.join_or g).s = str "(" ++ f.s ++ str "+or+" ++ g.s ++ str ")")
    ∧ (∀ f g : Filter, (f.join_and g).finalize = f.s ++ str "+and+" ++ g.s)
    ∧ (∀ f g : Filter, (f.join_or g).finalize = f.s ++ str "+or+" ++ g.s)
    ∧ (∀ f : Filter, f.s.head? = some '(' ∧ f.s.getLast? = some ')' →
        f.finalize = f.s.tail.dropLast)
    ∧ (∀ f : Filter, ¬(f.s.head? = some '(' ∧ f.s.getLast? = some ')') →
        f.finalize = f.s)
    ∧ (((Filter.new (str "Bar") (.plain (str "bar")) .Equals).join_and
          (Filter.new (str "Foo") (.plain (str "foo")) .NotEqual)).join_or
          (Filter.new (str "Bar") (.plain (str "baz")) .Equals)).finalize
        = str "(Bar+eq+'bar'+and+Foo+ne+'foo')+or+Bar+eq+'baz'" := by
  have hjoin_s : ∀ (f g : Filter) (opName : List Char),
      (f.join g opName).s
        = str "(" ++ f.s ++ (('+' :: opName) ++ ('+' :: g.s)) ++ str ")" := by
    intro f g opName
    simp [Filter.join, str]
  have hjoin_fin : ∀ (f g : Filter) (opName : List Char),
      (f.join g opName).finalize
        = f.s ++ ('+' :: (opName ++ ('+' :: g.s))) := by
    intro f g opName
    unfold Filter.finalize
    rw [if_pos]
    · show ((('(' :: (f.s ++ ('+' :: (opName ++ ('+' :: g.s))))) ++ [')']
          : List Char)).tail.dropLast = _
      rw [List.cons_append, List.tail_cons, List.dropLast_concat]
    · constructor
      · rfl
      · exact List.getLast?_concat _
  refine ⟨?_, ?_, ?_, ?_, ⟨rfl, rfl, rfl, rfl, rfl, rfl⟩,
    ?_, ?_, ?_, ?_, ?_, ?_, ?_, ?_, ?_, ?_⟩
  · intro k v op
    exact finalize_of_ends_apostrophe _
      (format_filter_string_ends_apostrophe k v op)
  · intro k v op
    simp [format_filter_string, str]
  · intro s
    simp [FilterValue.serialize, str]
  · intro s
    simp [FilterValue.serialize, str]
  · intro f k v op
    simp [Filter.and, Filter.push_operation, str]
  · intro f k v op
    simp [Filter.or, Filter.push_operation, str]
  · intro k1 v1 o1 k2 v2 o2
    exact finalize_of_ends_apostrophe _
      (push_operation_ends_apostrophe _ _ _ _ _)
  · intro f g
    rw [Filter.join_and, hjoin_s]
    simp [str]
  · intro f g
    rw [Filter.join_or, hjoin_s]
    simp [str]
  · intro f g
    rw [Filter.join_and, hjoin_fin]
    simp [str]
  · intro f g
    rw [Filter.join_or, hjoin_fin]
    simp [str]
  · intro f h
    unfold Filter.finalize
    rw [if_pos h]
  · intro f h
    unfold Filter.finalize
    rw [if_neg h]
  · decide

/-- Witness for C8: the strip / no-strip branches of `finalize` discharged
at concrete strings, and a concrete `new`-then-`and` chain. -/
theorem filter_builder_spec_witness :
    Filter.finalize { s := str "(x)" } = (str "(x)").tail.dropLast
    ∧ Filter.finalize { s := str "x" } = str "x"
    ∧ ((Filter.new (str "Bar") (.plain (str "bar")) .NotEqual).and
        (str "Foo") (.plain (str "foo")) .Equals).finalize
      = str "Bar+ne+'bar'+and+Foo+eq+'foo'" := by
  refine ⟨filter_builder_spec.2.2.2.2.2.2.2.2.2.2.2.2.1
      { s := str "(x)" } (by decide),
    filter_builder_spec.2.2.2.2.2.2.2.2.2.2.2.2.2.1
      { s := str "x" } (by decide), ?_⟩
  rw [filter_builder_spec.2.2.2.2.2.2.2.1 (str "Bar") (.plain (str "bar"))
    .NotEqual (str "Foo") (.plain (str "foo")) .Equals]
  decide

/-! ## Claim C6 -/

/-- Counterexample to C6: the configuration's `cost_centers_per_product` is
a `std::collections::HashMap`, and the classifier tries the patterns in the
`cost_centers` vector built in that map's *iteration* order (mod.rs lines
85-95, 128-135).  The two lists below enumerate the same two map entries in
the two orders a `HashMap` may yield them; the first matching pattern — and
hence the chosen cost center — differs between them, so the outcome is not
determined by the map's insertion order (or by any fixed order of the
entries), contradicting the claim. -/
theorem find_cost_center_order_dependent :
    find_cost_center [cc_entry_a, cc_entry_b] "x" = some "A"
    ∧ find_cost_center [cc_entry_b, cc_entry_a] "x" = some "B"
    ∧ find_cost_center [cc_entry_a, cc_entry_b] "x"
        ≠ find_cost_center [cc_entry_b, cc_entry_a] "x" := by
  decide

/-- C6 (amended): the cost-center patterns are tried in the order the
configuration `HashMap` yields its entries (an unspecified iteration order,
not insertion order), and the first pattern in that order matching the
product's display name determines its cost center — first match wins, not
best match. -/
theorem find_cost_center_first_match (l1 : List CostCenterEntry)
    (e : CostCenterEntry) (l2 : List CostCenterEntry) (name : String)
    (h1 : ∀ x ∈ l1, x.pattern name = false) (h2 : e.pattern name = true) :
    find_cost_center (l1 ++ e :: l2) name = some e.code := by
  induction l1 with
  | nil =>
    simp [find_cost_center, List.find?_cons, h2]
  | cons x t ih =>
    have hx : x.pattern name = false := h1 x (List.mem_cons_self x t)
    have ht : ∀ y ∈ t, y.pattern name = false :=
      fun y hy => h1 y (List.mem_cons_of_mem x hy)
    have := ih ht
    simpa [find_cost_center, List.find?_cons, hx] using this

/-- Witness for C6: a non-matching entry first, then the matching one wins
over a later entry that also matches. -/
theorem find_cost_center_first_match_witness :
    find_cost_center [cc_entry_y, cc_entry_a, cc_entry_b] "x" = some "A" :=
  find_cost_center_first_match [cc_entry_y] cc_entry_a [cc_entry_b] "x"
    (by decide) (by decide)

/-! ## Claim C7 -/

theorem count_product_lines_append (a b : List SaleLine) :
    count_product_lines (a ++ b)
      = count_product_lines a + count_product_lines b := by
  simp [count_product_lines, List.filter_append]

theorem count_fee_lines_append (a b : List SaleLine) :
    count_fee_lines (a ++ b) = count_fee_lines a + count_fee_lines b := by
  simp [count_fee_lines, List.filter_append]

theorem count_product_lines_cons_product (gl cc : String) (vp : ℚ)
    (nm : String) (am : ℚ) (ls : List SaleLine) :
    count_product_lines (.product gl cc vp nm am :: ls)
      = count_product_lines ls + 1 := by
  simp [count_product_lines, List.filter_cons]

theorem count_fee_lines_cons_product (gl cc : String) (vp : ℚ)
    (nm : String) (am : ℚ) (ls : List SaleLine) :
    count_fee_lines (.product gl cc vp nm am :: ls) = count_fee_lines ls := by
  simp [count_fee_lines, List.filter_cons]

theorem count_product_lines_fee (gl nm : String) (am : ℚ) :
    count_product_lines [.fee gl nm am] = 0 := by
  simp [count_product_lines]

theorem count_fee_lines_fee (gl nm : String) (am : ℚ) :
    count_fee_lines [.fee gl nm am] = 1 := by
  simp [count_fee_lines]

theorem classify_product_ok_shape (cfg : ClassifierConfig)
    (item : String × ℚ) (o : Option SaleLine)
    (h : classify_product cfg item = .ok o) :
    (is_ignored cfg item.1 = true ∧ o = none)
    ∨ (is_ignored cfg item.1 = false
        ∧ ∃ cc vat_pct, o = some (.product cfg.gl_account cc vat_pct
            (cfg.line_name ++ " | " ++ item.1) item.2)) := by
  unfold classify_product at h
  by_cases hig : is_ignored cfg item.1
  · left
    simp [hig] at h
    exact ⟨hig, h.symm⟩
  · right
    refine ⟨by simpa using hig, ?_⟩
    simp only [hig, if_neg] at h
    rw [if_neg (by simp [hig])] at h
    cases hfc : find_cost_center cfg.cost_centers item.1 with
    | none => rw [hfc] at h; cases h
    | some cc =>
      rw [hfc] at h
      dsimp only at h
      cases hsi : cfg.sale_items.find?
          (fun sale_item => sale_item.name = item.1) with
      | none => rw [hsi] at h; cases h
      | some sale_item =>
        rw [hsi] at h
        dsimp only at h
        cases hvc : cfg.vat_codes.find?
            (fun code => code.percentage = sale_item.tax_rate) with
        | none => rw [hvc] at h; cases h
        | some vat_code =>
          rw [hvc] at h
          dsimp only at h
          cases h
          exact ⟨cc, vat_code.percentage, rfl⟩

theorem classify_products_ok_counts (cfg : ClassifierConfig) :
    ∀ (items : List (String × ℚ)) (lines : List SaleLine),
      classify_products cfg items = .ok lines →
      count_product_lines lines
          = (items.filter (fun it => ! is_ignored cfg it.1)).length
      ∧ count_fee_lines lines = 0
      ∧ lines.length
          = (items.filter (fun it => ! is_ignored cfg it.1)).length := by
  intro items
  induction items with
  | nil =>
    intro lines h
    cases h
    simp [count_product_lines, count_fee_lines]
  | cons item rest ih =>
    intro lines h
    unfold classify_products at h
    cases hp : classify_product cfg item with
    | error e => rw [hp] at h; cases h
    | ok o =>
      rw [hp] at h
      cases hr : classify_products cfg rest with
      | error e => rw [hr] at h; cases h
      | ok ls =>
        rw [hr] at h
        cases h
        obtain ⟨h1, h2, h3⟩ := ih ls hr
        rcases classify_product_ok_shape cfg item o hp with
          ⟨hig, rfl⟩ | ⟨hig, cc, vat_pct, rfl⟩
        · have hfilter :
              List.filter (fun it => ! is_ignored cfg it.1) (item :: rest)
                = List.filter (fun it => ! is_ignored cfg it.1) rest := by
            simp [List.filter_cons, hig]
          rw [hfilter]
          simpa using ⟨h1, h2, h3⟩
        · have hfilter :
              List.filter (fun it => ! is_ignored cfg it.1) (item :: rest)
                = item :: List.filter (fun it => ! is_ignored cfg it.1) rest := by
            simp [List.filter_cons, hig]
          rw [hfilter]
          have hcons :
              (some (SaleLine.product cfg.gl_account cc vat_pct
                  (cfg.line_name ++ " | " ++ item.1) item.2)).toList ++ ls
                = SaleLine.product cfg.gl_account cc vat_pct
                    (cfg.line_name ++ " | " ++ item.1) item.2 :: ls := rfl
          rw [hcons, count_product_lines_cons_product,
            count_fee_lines_cons_product, List.length_cons, List.length_cons,
            h1, h2, h3]
          exact ⟨rfl, rfl, rfl⟩

/-- Counterexample to C7: the split-mode loop has no nonzero-total check.
With one product whose total is exactly `0` (and which is not ignored and
resolves normally), the classifier emits one product line for it plus the
fee line, whereas the claim — one product line per product *with a nonzero
total*, plus one fee line — predicts zero product lines here. -/
theorem classify_split_zero_total :
    classify_split cfg_zero [("Free", 0)] 2
      = .ok [.product "8000" "CC" 21 "Pretix Ev | Free" 0,
          .fee "5007" "Pretix Ev | Transactiekosten" 2]
    ∧ count_product_lines
        [.product "8000" "CC" 21 "Pretix Ev | Free" 0,
          .fee "5007" "Pretix Ev | Transactiekosten" 2] = 1
    ∧ ([(("Free" : String), (0 : ℚ))].filter
        (fun it => decide (it.2 ≠ 0) && ! is_ignored cfg_zero it.1)).length
      = 0 := by
  refine ⟨?_, by decide, by decide⟩
  rfl

/-- C7 (amended): with `split_per_product = true` the classifier emits
exactly one product line for every product of the per-product totals map
whose display name matches no ignore pattern (including products whose total
is zero), plus exactly one fee-total line; for a non-ignored product it
fails with the unmatched-product error exactly when no cost-center pattern
matches its name, and — once a cost center and the sale item are found —
with the unmatched-VAT-rate error exactly when no configured VAT code's
percentage equals the sale item's tax rate; on the spec's example (two sale
items matching distinct patterns, one ignored product) exactly two product
lines plus one fee line are emitted. -/
theorem classify_split_spec :
    (∀ (cfg : ClassifierConfig) (items : List (String × ℚ)) (fee_total : ℚ)
        (lines : List SaleLine),
      classify_split cfg items fee_total = .ok lines →
        count_product_lines lines
            = (items.filter (fun it => ! is_ignored cfg it.1)).length
        ∧ count_fee_lines lines = 1
        ∧ lines.length
            = (items.filter (fun it => ! is_ignored cfg it.1)).length + 1)
    ∧ (∀ (cfg : ClassifierConfig) (item : String × ℚ),
      is_ignored cfg item.1 = false →
        (classify_product cfg item = .error (.noCostCenter item.1)
          ↔ find_cost_center cfg.cost_centers item.1 = none))
    ∧ (∀ (cfg : ClassifierConfig) (item : String × ℚ) (cc : String)
        (sale_item : ExportResponseSaleItem),
      is_ignored cfg item.1 = false →
      find_cost_center cfg.cost_centers item.1 = some cc →
      cfg.sale_items.find? (fun si => si.name = item.1) = some sale_item →
        (classify_product cfg item = .error (.noVatRate item.1)
          ↔ cfg.vat_codes.find?
              (fun code => code.percentage = sale_item.tax_rate) = none))
    ∧ (classify_split cfg_split_example split_example_items 7
        = .ok [.product "8000" "CCA" 21 "Pretix Intro | Ticket A" 100,
            .product "8000" "CCB" 9 "Pretix Intro | Ticket B" 50,
            .fee "5007" "Pretix Intro | Transactiekosten" 7]
      ∧ count_product_lines
          [.product "8000" "CCA" 21 "Pretix Intro | Ticket A" 100,
            .product "8000" "CCB" 9 "Pretix Intro | Ticket B" 50,
            .fee "5007" "Pretix Intro | Transactiekosten" 7] = 2
      ∧ count_fee_lines
          [.product "8000" "CCA" 21 "Pretix Intro | Ticket A" 100,
            .product "8000" "CCB" 9 "Pretix Intro | Ticket B" 50,
            .fee "5007" "Pretix Intro | Transactiekosten" 7] = 1) := by
  refine ⟨?_, ?_, ?_, by rfl, by decide, by decide⟩
  · intro cfg items fee_total lines h
    unfold classify_split at h
    cases hp : classify_products cfg items with
    | error e => rw [hp] at h; cases h
    | ok ls =>
      rw [hp] at h
      cases h
      obtain ⟨h1, h2, h3⟩ := classify_products_ok_counts cfg items ls hp
      refine ⟨?_, ?_, ?_⟩
      · rw [count_product_lines_append, count_product_lines_fee]
        omega
      · rw [count_fee_lines_append, count_fee_lines_fee]
        omega
      · rw [List.length_append]
        simp only [List.length_singleton]
        omega
  · intro cfg item hig
    unfold classify_product
    rw [if_neg (by simp [hig])]
    cases hfc : find_cost_center cfg.cost_centers item.1 with
    | none => simp
    | some cc =>
      dsimp only
      constructor
      · intro h
        exfalso
        cases hsi : cfg.sale_items.find?
            (fun sale_item => sale_item.name = item.1) with
        | none => rw [hsi] at h; dsimp only at h; simp at h
        | some sale_item =>
          rw [hsi] at h
          dsimp only at h
          cases hvc : cfg.vat_codes.find?
              (fun code => code.percentage = sale_item.tax_rate) with
          | none => rw [hvc] at h; dsimp only at h; simp at h
          | some vat_code => rw [hvc] at h; dsimp only at h; simp at h
      · intro h
        simp at h
  · intro cfg item cc sale_item hig hfc hsi
    unfold classify_product
    rw [if_neg (by simp [hig]), hfc]
    dsimp only
    rw [hsi]
    dsimp only
    cases hvc : cfg.vat_codes.find?
        (fun code => code.percentage = sale_item.tax_rate) with
    | none => simp
    | some vat_code => simp

/-- Witness for C7: the counting conjunct and both error characterizations
discharged at concrete inputs. -/
theorem classify_split_spec_witness :
    (count_product_lines
        [.product "8000" "CCA" 21 "Pretix Intro | Ticket A" 100,
          .product "8000" "CCB" 9 "Pretix Intro | Ticket B" 50,
          .fee "5007" "Pretix Intro | Transactiekosten" 7]
      = (split_example_items.filter
          (fun it => ! is_ignored cfg_split_example it.1)).length)
    ∧ (classify_product cfg_zero ("Unmatched", 5)
          = .error (.noCostCenter "Unmatched")
        ↔ find_cost_center cfg_zero.cost_centers "Unmatched" = none)
    ∧ (classify_product cfg_zero ("Free", 5) = .error (.noVatRate "Free")
        ↔ cfg_zero.vat_codes.find?
            (fun code => code.percentage = (21 : ℚ)) = none) := by
  refine ⟨?_, ?_, ?_⟩
  · exact (classify_split_spec.1 cfg_split_example split_example_items 7
      _ classify_split_spec.2.2.2.1).1
  · exact classify_split_spec.2.1 cfg_zero ("Unmatched", 5) (by decide)
  · exact classify_split_spec.2.2.1 cfg_zero ("Free", 5) "CC"
      { id := 1, name := "Free", tax_rate := 21 } (by decide) (by decide)
      (by decide)

/-! ## Claim C1 -/

theorem optAdd_assoc (a b c : Option ℚ) :
    optAdd (optAdd a b) c = optAdd a (optAdd b c) := by
  cases a <;> cases b <;> cases c <;> simp [optAdd, add_assoc]

theorem foldl_optAdd_shift (l : List (Option ℚ)) (x : Option ℚ) :
    l.foldl optAdd x = optAdd x (listOptSum l) := by
  induction l generalizing x with
  | nil => cases x <;> simp [listOptSum, optAdd]
  | cons a t ih =>
    simp only [listOptSum, List.foldl_cons]
    rw [ih (optAdd x a), ih (optAdd none a), optAdd_assoc]
    rfl

theorem listOptSum_append (a b : List (Option ℚ)) :
    listOptSum (a ++ b) = optAdd (listOptSum a) (listOptSum b) := by
  simp only [listOptSum, List.foldl_append]
  rw [foldl_optAdd_shift]
  rfl

theorem listOptSum_flatten (xss : List (List (Option ℚ))) :
    listOptSum xss.flatten = listOptSum (xss.map listOptSum) := by
  induction xss with
  | nil => rfl
  | cons xs t ih =>
    rw [List.flatten_cons, listOptSum_append, ih, List.map_cons]
    show _ = List.foldl optAdd (optAdd none (listOptSum xs)) _
    rw [foldl_optAdd_shift]
    rfl

theorem foldl_mergeTotals_apply (ms : List (ℕ → Option ℚ))
    (acc : ℕ → Option ℚ) (k : ℕ) :
    (ms.foldl mergeTotals acc) k
      = (ms.map (fun m => m k)).foldl optAdd (acc k) := by
  induction ms generalizing acc with
  | nil => rfl
  | cons m t ih =>
    simp only [List.foldl_cons, List.map_cons]
    rw [ih (mergeTotals acc m)]
    rfl

/-- The code's totals map agrees pointwise with `dedup_group_totals`. -/
theorem calc_eq_dedup (orders : List OrderDataExportOrderItem) (k : ℕ) :
    calc_order_totals_per_sale_item orders k = dedup_group_totals orders k := by
  unfold calc_order_totals_per_sale_item dedup_group_totals listOptSum
  rw [foldl_mergeTotals_apply, List.map_map]
  rfl

theorem collectPositions_foldl (l : List OrderDataExportOrderedItem)
    (m : ℕ → Option ℚ) (k : ℕ) :
    (l.foldl (fun m v => fun k' => if k' = v.item then some v.price else m k')
        m) k
      = l.foldl (fun acc v => if v.item = k then some v.price else acc)
          (m k) := by
  induction l generalizing m with
  | nil => rfl
  | cons v t ih =>
    simp only [List.foldl_cons]
    rw [ih]
    congr 1
    by_cases h : v.item = k
    · rw [if_pos h.symm, if_pos h]
    · rw [if_neg (fun hk : k = v.item => h hk.symm), if_neg h]

theorem foldl_upd_of_not_mem (k : ℕ) (l : List OrderDataExportOrderedItem)
    (acc : Option ℚ) (h : ∀ p ∈ l, p.item ≠ k) :
    l.foldl (fun acc v => if v.item = k then some v.price else acc) acc
      = acc := by
  induction l generalizing acc with
  | nil => rfl
  | cons v t ih =>
    have hv : v.item ≠ k := h v (List.mem_cons_self v t)
    simp only [List.foldl_cons, if_neg hv]
    exact ih acc (fun p hp => h p (List.mem_cons_of_mem v hp))

theorem foldl_optAdd_all_none (xs : List (Option ℚ)) (acc : Option ℚ)
    (h : ∀ x ∈ xs, x = none) : xs.foldl optAdd acc = acc := by
  induction xs generalizing acc with
  | nil => rfl
  | cons x t ih =>
    have hx : x = none := h x (List.mem_cons_self x t)
    simp only [List.foldl_cons, hx]
    rw [show optAdd acc none = acc by cases acc <;> rfl]
    exact ih acc (fun y hy => h y (List.mem_cons_of_mem x hy))

/-- When an order lists each product at most once, the `HashMap` collect
loses nothing: the per-order map equals the per-order flatten-and-sum. -/
theorem collectPositions_nodup (l : List OrderDataExportOrderedItem)
    (hnd : (l.map (·.item)).Nodup) (k : ℕ) :
    collectPositions l k = listOptSum (l.map (posOpt k)) := by
  induction l with
  | nil => rfl
  | cons v t ih =>
    rw [List.map_cons, List.nodup_cons] at hnd
    obtain ⟨hv, ht⟩ := hnd
    have lhs_eq : collectPositions (v :: t) k
        = t.foldl (fun acc v' => if v'.item = k then some v'.price else acc)
            (if k = v.item then some v.price else none) := by
      unfold collectPositions
      rw [List.foldl_cons, collectPositions_foldl]
    have rhs_eq : listOptSum ((v :: t).map (posOpt k))
        = optAdd (posOpt k v) (listOptSum (t.map (posOpt k))) := by
      rw [List.map_cons, listOptSum, List.foldl_cons]
      rw [show optAdd none (posOpt k v) = posOpt k v from rfl]
      rw [foldl_optAdd_shift]
    rw [lhs_eq, rhs_eq]
    by_cases hk : v.item = k
    · have hnone : ∀ p ∈ t, p.item ≠ k := by
        intro p hp hpk
        have hmem : p.item ∈ t.map (·.item) := List.mem_map_of_mem (·.item) hp
        rw [hpk, ← hk] at hmem
        exact hv hmem
      rw [if_pos hk.symm, foldl_upd_of_not_mem k t _ hnone]
      have hall : ∀ x ∈ t.map (posOpt k), x = none := by
        intro x hx
        obtain ⟨p, hp, rfl⟩ := List.mem_map.mp hx
        simp [posOpt, hnone p hp]
      rw [show listOptSum (t.map (posOpt k)) = none from
        foldl_optAdd_all_none _ none hall]
      simp [posOpt, hk, optAdd]
    · rw [if_neg (fun h => hk h.symm)]
      have hcollect : collectPositions t k
          = t.foldl (fun acc v' => if v'.item = k then some v'.price else acc)
              none := by
        unfold collectPositions
        rw [collectPositions_foldl]
      rw [← hcollect, ih ht]
      simp [posOpt, hk, optAdd]

/-- Counterexample to C1: the source first collects each order's positions
into a `HashMap` keyed by product id, so within a single record a duplicated
product keeps only one price — it does not contribute both.  For one order
listing product 1 twice at price 10, the code's total is 10 while the
claim's flatten-group-sum is 20. -/
theorem calc_order_totals_dup_position :
    calc_order_totals_per_sale_item [dup_position_order] 1 = some 10
    ∧ flatten_group_totals [dup_position_order] 1 = some 20
    ∧ calc_order_totals_per_sale_item [dup_position_order] 1
        ≠ flatten_group_totals [dup_position_order] 1 := by
  have hcalc : calc_order_totals_per_sale_item [dup_position_order] 1
      = some 10 := rfl
  have hflat : flatten_group_totals [dup_position_order] 1 = some 20 := by
    norm_num [flatten_group_totals, listOptSum, posOpt, optAdd,
      dup_position_order]
  refine ⟨hcalc, hflat, ?_⟩
  rw [hcalc, hflat]
  norm_num

/-- C1 (amended): `calc_order_totals_per_sale_item` returns the map obtained
by first reducing each record's positions to a per-record map in which a
later position for the same product overwrites an earlier one (the `HashMap`
collect), then summing the per-record values per product across records.
When every record lists each product at most once this coincides with
flattening all positions, grouping by product id and summing — in
particular, two records each selling product 1 at price 10 and product 2 at
price 5 yield the map `{1 : 20, 2 : 10}`, product 1 (and 2) appearing twice
in total. -/
theorem calc_order_totals_per_sale_item_spec :
    (∀ (orders : List OrderDataExportOrderItem) (k : ℕ),
      calc_order_totals_per_sale_item orders k = dedup_group_totals orders k)
    ∧ (∀ orders : List OrderDataExportOrderItem,
        (∀ o ∈ orders, (o.ordered_items.map (·.item)).Nodup) →
        ∀ k : ℕ, calc_order_totals_per_sale_item orders k
          = flatten_group_totals orders k)
    ∧ calc_order_totals_per_sale_item two_record_example 1 = some 20
    ∧ calc_order_totals_per_sale_item two_record_example 2 = some 10 := by
  refine ⟨calc_eq_dedup, ?_,
    by norm_num [calc_order_totals_per_sale_item, collectPositions,
      mergeTotals, optAdd, two_record_example],
    by norm_num [calc_order_totals_per_sale_item, collectPositions,
      mergeTotals, optAdd, two_record_example]⟩
  intro orders hnd k
  rw [calc_eq_dedup]
  unfold dedup_group_totals flatten_group_totals
  have hswap : List.map (posOpt k)
        ((orders.map (fun x => x.ordered_items)).flatten)
      = (orders.map (fun o => o.ordered_items.map (posOpt k))).flatten := by
    simp [List.map_flatten, List.map_map, Function.comp_def]
  rw [hswap, listOptSum_flatten, List.map_map]
  apply congrArg
  apply List.map_congr_left
  intro o ho
  exact collectPositions_nodup o.ordered_items (hnd o ho) k

/-- Witness for C1: the flatten-group agreement discharged on the spec's
two-record example, whose records have no duplicate product ids. -/
theorem calc_order_totals_per_sale_item_spec_witness :
    calc_order_totals_per_sale_item two_record_example 1
      = flatten_group_totals two_record_example 1 :=
  calc_order_totals_per_sale_item_spec.2.1 two_record_example (by decide) 1

end Knaakt
